import Mathlib

/-!
Shallow embedding of `scripts/post_daily.py`: the week-window calculator,
the date parser, the record classifier and the schedule formatter, together
with theorems settling the specification claims about them.

Calendar dates are modelled as rata-die day numbers (`Int`, days since
1970-01-01), with civil (year, month, day) conversion by the standard
Gregorian algorithms; this models Python `datetime.date` together with
whole-day `datetime.timedelta` arithmetic.  A timezone-aware instant is
modelled by its JST calendar date: the script only ever subtracts whole
days from it and then takes `.date()`, and Asia/Tokyo has no DST, so the
time-of-day component is irrelevant to every computation modelled here.
-/

namespace PostDaily

/-- Gregorian leap year, as the Python `calendar` and `datetime` modules use it. -/
def isLeapYear (y : Int) : Bool :=
  y % 4 == 0 && (y % 100 != 0 || y % 400 == 0)

/-- Length of month `m` in year `y` (months numbered 1..12). -/
def daysInMonth (y : Int) (m : Nat) : Nat :=
  if m = 2 then (if isLeapYear y then 29 else 28)
  else if m = 4 ∨ m = 6 ∨ m = 9 ∨ m = 11 then 30
  else 31

/-- `datetime.date(y, m, d)` succeeds exactly when this holds
(`datetime.MINYEAR = 1`, `datetime.MAXYEAR = 9999`). -/
def isValidDate (y : Int) (m d : Nat) : Bool :=
  1 ≤ y && y ≤ 9999 && 1 ≤ m && m ≤ 12 && 1 ≤ d && d ≤ daysInMonth y m

/-- Rata-die day number of the civil date `y-m-d` (days since 1970-01-01). -/
def daysFromCivil (y : Int) (m d : Nat) : Int :=
  let y' : Int := if m ≤ 2 then y - 1 else y
  let era : Int := Int.fdiv y' 400
  let yoe : Int := y' - era * 400
  let mp : Int := if 2 < m then (m : Int) - 3 else (m : Int) + 9
  let doy : Int := (153 * mp + 2) / 5 + (d : Int) - 1
  let doe : Int := yoe * 365 + yoe / 4 - yoe / 100 + doy
  era * 146097 + doe - 719468

/-- Civil date (year, month, day) of a rata-die day number. -/
def civilFromDays (z : Int) : Int × Nat × Nat :=
  let z' := z + 719468
  let era : Int := Int.fdiv z' 146097
  let doe : Int := z' - era * 146097
  let yoe : Int := (doe - doe / 1460 + doe / 36524 - doe / 146096) / 365
  let y : Int := yoe + era * 400
  let doy : Int := doe - (365 * yoe + yoe / 4 - yoe / 100)
  let mp : Int := (5 * doy + 2) / 153
  let d : Int := doy - (153 * mp + 2) / 5 + 1
  let m : Int := if mp < 10 then mp + 3 else mp - 9
  (if m ≤ 2 then y + 1 else y, m.toNat, d.toNat)

/-- The `.year` attribute of a `datetime.date`. -/
def dateYear (z : Int) : Int := (civilFromDays z).1

/-- The `.month` attribute of a `datetime.date`. -/
def dateMonth (z : Int) : Nat := (civilFromDays z).2.1

/-- The `.day` attribute of a `datetime.date`. -/
def dateDay (z : Int) : Nat := (civilFromDays z).2.2

/-- Python `date.weekday()`: Monday = 0 .. Sunday = 6
(1970-01-01 was a Thursday, weekday 3). -/
def pyWeekday (z : Int) : Nat := ((z + 3) % 7).toNat

/-- Python `date.isoweekday()`: Monday = 1 .. Sunday = 7. -/
def pyIsoweekday (z : Int) : Nat := pyWeekday z + 1

/-- `get_monday_date`: subtract `isoweekday() - 1` days from "now". -/
def get_monday_date (today : Int) : Int :=
  today - ((pyIsoweekday today : Int) - 1)

/-- `build_week_dates`: the set `{ monday + i | 0 ≤ i < 7 }`. -/
def build_week_dates (monday_date : Int) : Finset Int :=
  (Finset.range 7).image (fun i : Nat => monday_date + (i : Int))

/-- Python `\s` / `str.strip()` whitespace (ASCII range; the cells the
script handles contain no exotic Unicode spaces). -/
def pyIsSpace (c : Char) : Bool :=
  c = ' ' ∨ c = '\t' ∨ c = '\n' ∨ c = '\r' ∨ c = '\x0b' ∨ c = '\x0c'

/-- Python `str.strip()`. -/
def pyStrip (s : String) : String :=
  ⟨((s.data.dropWhile pyIsSpace).reverse.dropWhile pyIsSpace).reverse⟩

/-- Numeric value of a decimal digit character. -/
def digitVal (c : Char) : Nat := c.toNat - '0'.toNat

/-- The regex character class matching a slash or a hyphen separator. -/
def isSep (c : Char) : Bool := c = '/' ∨ c = '-'

/-- Day-group of the regex: greedily read one or two decimal digits
(`(\d{1,2})`); everything that follows is optional, so nothing after the
day group can make the match fail. -/
def matchDay (m : Nat) : List Char → Option (Nat × Nat)
  | x :: y :: _ =>
    if x.isDigit && y.isDigit then some (m, 10 * digitVal x + digitVal y)
    else if x.isDigit then some (m, digitVal x)
    else none
  | [x] => if x.isDigit then some (m, digitVal x) else none
  | [] => none

/-- The regex match of `parse_date_str`: optional whitespace, a 1-2 digit
month group, a slash-or-hyphen separator, a 1-2 digit day group, then an
optional uncaptured year segment (separator plus 2-4 digits), returning
the integer values of the two captured groups.  `re.match` anchors only
at the start, and the year segment is optional and captures nothing, so
the result depends only on the leading whitespace-month-separator-day
portion; the month group is greedy with backtracking (two digits if
followed by a separator, else one digit followed by a separator). -/
def matchMMDD (s : String) : Option (Nat × Nat) :=
  match s.data.dropWhile pyIsSpace with
  | a :: rest =>
    if a.isDigit then
      match rest with
      | b :: c :: rest2 =>
        if b.isDigit && isSep c then matchDay (10 * digitVal a + digitVal b) rest2
        else if isSep b then matchDay (digitVal a) (c :: rest2)
        else none
      | _ => none
    else none
  | [] => none

/-- `parse_date_str(date_str, reference_year)`.

The input is `Option String`: `none` models a non-`str` value (the guard
`not date_str or not isinstance(date_str, str)` rejects it).  The
`dateutil.parser.parse` fallback is an external library of enormous
surface; it is passed in as a parameter `fallback` (`none` models the
`ValueError`/`OverflowError` branch).  The second component of the result
records whether the fallback parser was invoked, which is exactly the
control-flow fact several claims speak about. -/
def parse_date_str (fallback : String → Option Int) (dateStr : Option String)
    (referenceYear : Int) : Option Int × Bool :=
  match dateStr with
  | none => (none, false)
  | some s =>
    if s = "" then (none, false)
    else
      match matchMMDD s with
      | some (m, d) =>
        if isValidDate referenceYear m d then
          (some (daysFromCivil referenceYear m d), false)
        else (fallback s, true)
      | none => (fallback s, true)

/-- A spreadsheet row: a finite mapping from header name to cell string
(`load_public_sheet_records` builds one dict per row; keys are unique). -/
def RawRecord := List (String × String)

/-- The alias chain of `row.get` calls joined by `or` with a final empty
string: the first key whose value is truthy (a non-empty string) wins,
otherwise the empty string. -/
def fieldLookup (row : RawRecord) : List String → String
  | [] => ""
  | k :: ks =>
    match List.lookup k row with
    | some v => if v = "" then fieldLookup row ks else v
    | none => fieldLookup row ks

def dateAliases : List String := ["日付", "date", "Date"]

def timeAliases : List String := ["テスト時間", "time", "Time"]

def typeAliases : List String := ["予定タイプ", "タイプ", "種別", "type", "Type"]

def contentAliases : List String := ["内容", "content"]

def personAliases : List String := ["担当", "person"]

def absentAliases : List String := ["欠席予定", "欠席者", "欠席", "absent", "Absentees"]

/-- The event dict built by `find_week_events` (the raw-row back-pointer,
kept in the Python dict only for debug printing, is omitted). -/
structure Event where
  date : Int
  time : Option String
  content : String
  person : String
  type : String
  type_raw : String
  absent_raw : String
  absent_display : Option String
deriving DecidableEq

/-- Python truthiness of an optional string (`None` and the empty string
are falsy). -/
def pyTruthyOpt : Option String → Bool
  | none => false
  | some s => s ≠ ""

/-- The body of the `for row in records` loop of `find_week_events`:
at most one event per row. -/
def processRow (fallback : String → Option Int) (week_dates : Finset Int)
    (reference_year : Int) (row : RawRecord) : Option Event :=
  let date_str := fieldLookup row dateAliases
  let time_str := fieldLookup row timeAliases
  let type_str := pyStrip (fieldLookup row typeAliases)
  let content := fieldLookup row contentAliases
  let person := fieldLookup row personAliases
  let absent_raw := pyStrip (fieldLookup row absentAliases)
  if date_str = "" then none
  else
    match (parse_date_str fallback (some (pyStrip date_str)) reference_year).1 with
    | none => none
    | some d =>
      if d ∈ week_dates then
        let ev_type := if type_str = "ゼミ" then "ゼミ" else "重要日程"
        let absent_display := if absent_raw = "" then none else some absent_raw
        let ev : Event :=
          { date := d
            time := if time_str = "" then none else some time_str
            content := content
            person := person
            type := ev_type
            type_raw := type_str
            absent_raw := absent_raw
            absent_display := absent_display }
        if ev.type = "ゼミ" then
          if pyTruthyOpt ev.time then some ev else none
        else some ev
      else none

/-- `find_week_events(records, week_dates)` (`min(week_dates)` is taken on
a set that is nonempty whenever it comes from `build_week_dates`; the
`untop' 0` default is never reached there). -/
def find_week_events (fallback : String → Option Int) (records : List RawRecord)
    (week_dates : Finset Int) : List Event :=
  let monday := week_dates.min.untop' 0
  let reference_year := dateYear monday
  records.filterMap (processRow fallback week_dates reference_year)

/-- The dict `weekday_map`, sending the 0-based weekday index 0..6 to the
single-kanji abbreviations 月火水木金土日. -/
def weekday_map (i : Nat) : String :=
  match i with
  | 0 => "月" | 1 => "火" | 2 => "水" | 3 => "木" | 4 => "金" | 5 => "土" | _ => "日"

/-- The sort key order used by `sorted` in `format_schedule`: the key of
an event is the pair of its date and its time with `None` replaced by the
empty string; Python compares the key tuples lexicographically, strings
by code points. -/
def evKeyLE (a b : Event) : Prop :=
  a.date < b.date ∨ (a.date = b.date ∧ a.time.getD "" ≤ b.time.getD "")

instance (a b : Event) : Decidable (evKeyLE a b) := by
  unfold evKeyLE; infer_instance

def evLe (a b : Event) : Bool := decide (evKeyLE a b)

/-- Python `sorted` is a stable sort with respect to the key order. -/
def sortEvents (events : List Event) : List Event := events.mergeSort evLe

/-- The lines emitted for one event in the `for ev in events_sorted` loop
of `format_schedule`. -/
def formatEventLines (ev : Event) : List String :=
  let md := toString (dateMonth ev.date) ++ "/" ++ toString (dateDay ev.date)
  let wd := weekday_map (pyWeekday ev.date)
  if ev.type = "ゼミ" then
    [md ++ "(" ++ wd ++ "): " ++ ev.content]
    ++ (if ev.person ≠ "" then ["> • 担当: " ++ ev.person] else [])
    ++ (if pyTruthyOpt ev.time then ["> • 時間: " ++ ev.time.getD ""] else [])
    ++ (if pyTruthyOpt ev.absent_display then
          ["> • 欠席予定: " ++ ev.absent_display.getD ""]
        else ["> • 欠席予定: なし"])
    ++ (if pyTruthyOpt ev.time && !(ev.time.getD "" == "13:00-14:30") then
          ["> • *※注意! 時間が通常の 13:00-14:30 以外です*"]
        else [])
  else [md ++ "(" ++ wd ++ "): " ++ ev.content]

/-- The header line `f"今週の予定：{start.month}月{start.day}日 〜 {end.month}月{end.day}日"`. -/
def headerLine (monday_date : Int) : String :=
  "今週の予定：" ++ toString (dateMonth monday_date) ++ "月"
    ++ toString (dateDay monday_date) ++ "日 〜 "
    ++ toString (dateMonth (monday_date + 6)) ++ "月"
    ++ toString (dateDay (monday_date + 6)) ++ "日"

/-- `format_schedule(events, monday_date, week_dates)` (the `week_dates`
argument is unused in the Python body as well). -/
def format_schedule (events : List Event) (monday_date : Int)
    (week_dates : Finset Int) : String :=
  let _ := week_dates
  let header := headerLine monday_date
  if events = [] then header ++ "\n予定はありません。"
  else String.intercalate "\n" (header :: (sortEvents events).flatMap formatEventLines)

/-! ### Helper lemmas -/

/-- A decimal digit character is not Python whitespace. -/
theorem digit_not_space {c : Char} (h : c.isDigit = true) : pyIsSpace c = false := by
  simp only [pyIsSpace, decide_eq_false_iff_not]
  intro h'
  rcases h' with h' | h' | h' | h' | h' | h' <;> subst h' <;> exact absurd h (by decide)

/-- An optional string that is Python-truthy has a non-empty value. -/
theorem pyTruthyOpt_getD_ne {t : Option String} (h : pyTruthyOpt t = true) :
    t.getD "" ≠ "" := by
  cases t with
  | none => exact absurd h (by decide)
  | some s => simpa [pyTruthyOpt] using h

/-- `dropWhile` skips over a prefix all of whose elements satisfy the test. -/
theorem dropWhile_append_all {p : Char → Bool} {l1 l2 : List Char}
    (h : ∀ c ∈ l1, p c = true) :
    (l1 ++ l2).dropWhile p = l2.dropWhile p := by
  induction l1 with
  | nil => rfl
  | cons a t ih =>
    have ha : p a = true := h a (List.mem_cons_self a t)
    simp only [List.cons_append, List.dropWhile_cons, ha, if_true]
    exact ih (fun c hc => h c (List.mem_cons_of_mem a hc))

/-- Everything about the fields of an event produced by one loop
iteration of `find_week_events`. -/
theorem processRow_inv (f : String → Option Int) (wd : Finset Int) (y : Int)
    (row : RawRecord) (ev : Event) (h : processRow f wd y row = some ev) :
    ev.type_raw = pyStrip (fieldLookup row typeAliases) ∧
    ev.type = (if ev.type_raw = "ゼミ" then "ゼミ" else "重要日程") ∧
    ev.time = (if fieldLookup row timeAliases = "" then none
               else some (fieldLookup row timeAliases)) ∧
    ev.content = fieldLookup row contentAliases ∧
    ev.person = fieldLookup row personAliases ∧
    ev.absent_raw = pyStrip (fieldLookup row absentAliases) ∧
    ev.absent_display = (if ev.absent_raw = "" then none else some ev.absent_raw) ∧
    (ev.type = "ゼミ" → pyTruthyOpt ev.time = true) ∧
    ev.date ∈ wd := by
  simp only [processRow] at h
  repeat' split at h
  any_goals exact Option.noConfusion h
  all_goals
    injection h with h
    subst h
    exact ⟨rfl, by simp_all, by simp_all, rfl, rfl, rfl, by simp_all, by simp_all,
      by assumption⟩

/-- A concrete fallback parser that always fails, as `dateutil.parser.parse`
does on garbage input. -/
def noFallback : String → Option Int := fun _ => none

/-- The week of Monday 2024-07-01, used as concrete input by witnesses. -/
def wdJul2024 : Finset Int := build_week_dates (daysFromCivil 2024 7 1)

/-! ### Claims -/

/-- C1: for every raw record that yields an event, type classification is
binary: the extracted (stripped) type label `"ゼミ"` gives type `"ゼミ"`
(Regular), and every other label — empty, unknown or malformed — gives
type `"重要日程"` (Important). -/
theorem claim_C1_type_classification_binary (f : String → Option Int)
    (wd : Finset Int) (y : Int) (row : RawRecord) (ev : Event)
    (h : processRow f wd y row = some ev) :
    (pyStrip (fieldLookup row typeAliases) = "ゼミ" → ev.type = "ゼミ") ∧
    (pyStrip (fieldLookup row typeAliases) ≠ "ゼミ" → ev.type = "重要日程") := by
  obtain ⟨h1, h2, -⟩ := processRow_inv f wd y row ev h
  rw [h2, h1]
  constructor
  · intro hx; rw [if_pos hx]
  · intro hx; rw [if_neg hx]

def rowC1 : RawRecord := [("日付", "7/3"), ("タイプ", "レポート提出"), ("内容", "B")]

def evC1 : Event :=
  { date := daysFromCivil 2024 7 3, time := none, content := "B", person := ""
    type := "重要日程", type_raw := "レポート提出", absent_raw := ""
    absent_display := none }

theorem claim_C1_witness :
    processRow noFallback wdJul2024 2024 rowC1 = some evC1 ∧
    ((pyStrip (fieldLookup rowC1 typeAliases) = "ゼミ" → evC1.type = "ゼミ") ∧
     (pyStrip (fieldLookup rowC1 typeAliases) ≠ "ゼミ" → evC1.type = "重要日程")) :=
  ⟨by decide, claim_C1_type_classification_binary noFallback wdJul2024 2024 rowC1 evC1
    (by decide)⟩

/-- C2: a row classified Regular (`"ゼミ"`) whose time cell is empty yields
no event at all (it is not emitted as Important either), and consequently
every Regular event in the classifier output has a non-empty time. -/
theorem claim_C2_seminar_without_time_dropped (f : String → Option Int)
    (wd : Finset Int) (y : Int) (row : RawRecord) (records : List RawRecord)
    (h1 : pyStrip (fieldLookup row typeAliases) = "ゼミ")
    (h2 : fieldLookup row timeAliases = "") :
    processRow f wd y row = none ∧
    (∀ ev ∈ find_week_events f records wd, ev.type = "ゼミ" →
      ev.time.getD "" ≠ "") := by
  constructor
  · simp only [processRow, h1, h2]
    split
    · rfl
    · split
      · rfl
      · split
        · simp [pyTruthyOpt]
        · rfl
  · intro ev hev hty
    simp only [find_week_events, List.mem_filterMap] at hev
    obtain ⟨row', -, hrow⟩ := hev
    obtain ⟨-, -, -, -, -, -, -, h8, -⟩ := processRow_inv _ _ _ _ _ hrow
    exact pyTruthyOpt_getD_ne (h8 hty)

def rowC2 : RawRecord := [("日付", "7/3"), ("タイプ", "ゼミ"), ("内容", "B")]

theorem claim_C2_witness :
    pyStrip (fieldLookup rowC2 typeAliases) = "ゼミ" ∧
    fieldLookup rowC2 timeAliases = "" ∧
    (processRow noFallback wdJul2024 2024 rowC2 = none ∧
     (∀ ev ∈ find_week_events noFallback [] wdJul2024, ev.type = "ゼミ" →
       ev.time.getD "" ≠ "")) :=
  ⟨by decide, by decide,
    claim_C2_seminar_without_time_dropped noFallback wdJul2024 2024 rowC2 []
      (by decide) (by decide)⟩

/-- C10: the classifier strips surrounding whitespace from the type label
before classifying, so a type cell reading `"ゼミ"` surrounded by
whitespace classifies Regular and a whitespace-only type cell (which
strips to the empty label) classifies Important. -/
theorem claim_C10_type_label_stripped (f : String → Option Int)
    (wd : Finset Int) (y : Int) (row : RawRecord) (ev : Event)
    (h : processRow f wd y row = some ev) :
    (ev.type = "ゼミ" ↔ pyStrip (fieldLookup row typeAliases) = "ゼミ") ∧
    (∀ l1 l2 : List Char, (∀ c ∈ l1, pyIsSpace c = true) →
      (∀ c ∈ l2, pyIsSpace c = true) →
      pyStrip ⟨l1 ++ 'ゼ' :: 'ミ' :: l2⟩ = "ゼミ" ∧ pyStrip ⟨l1 ++ l2⟩ = "") := by
  constructor
  · obtain ⟨h1, h2, -⟩ := processRow_inv f wd y row ev h
    rw [h2, h1]
    constructor
    · intro hx
      by_contra hne
      rw [if_neg hne] at hx
      exact absurd hx (by decide)
    · intro hx; rw [if_pos hx]
  · intro l1 l2 hl1 hl2
    have hrev : ∀ c ∈ l2.reverse, pyIsSpace c = true :=
      fun c hc => hl2 c (List.mem_reverse.mp hc)
    constructor
    · show String.mk (((l1 ++ 'ゼ' :: 'ミ' :: l2).dropWhile
        pyIsSpace).reverse.dropWhile pyIsSpace).reverse = "ゼミ"
      rw [dropWhile_append_all hl1]
      rw [List.dropWhile_cons, if_neg (by decide)]
      rw [show ('ゼ' :: 'ミ' :: l2).reverse = l2.reverse ++ ['ミ', 'ゼ'] by
        simp]
      rw [dropWhile_append_all hrev]
      rfl
    · show String.mk (((l1 ++ l2).dropWhile pyIsSpace).reverse.dropWhile
        pyIsSpace).reverse = ""
      rw [dropWhile_append_all hl1]
      rw [show l2.dropWhile pyIsSpace = [] from
        List.dropWhile_eq_nil_iff.mpr (fun c hc => hl2 c hc)]
      rfl

def rowC10 : RawRecord := [("日付", "7/3"), ("予定タイプ", " ゼミ "),
  ("テスト時間", "13:00-14:30"), ("内容", "A")]

def evC10 : Event :=
  { date := daysFromCivil 2024 7 3, time := some "13:00-14:30", content := "A"
    person := "", type := "ゼミ", type_raw := "ゼミ", absent_raw := ""
    absent_display := none }

theorem claim_C10_witness :
    processRow noFallback wdJul2024 2024 rowC10 = some evC10 ∧
    ((evC10.type = "ゼミ" ↔ pyStrip (fieldLookup rowC10 typeAliases) = "ゼミ") ∧
     (∀ l1 l2 : List Char, (∀ c ∈ l1, pyIsSpace c = true) →
       (∀ c ∈ l2, pyIsSpace c = true) →
       pyStrip ⟨l1 ++ 'ゼ' :: 'ミ' :: l2⟩ = "ゼミ" ∧ pyStrip ⟨l1 ++ l2⟩ = "")) :=
  ⟨by decide, claim_C10_type_label_stripped noFallback wdJul2024 2024 rowC10 evC10
    (by decide)⟩

/-- C4: for every (JST calendar date of a) timezone-aware instant `t`,
`get_monday_date t` is a Monday, is not after `t`, and the week-date set
built from it is exactly the 7 distinct dates
`{monday, monday+1, …, monday+6}`. -/
theorem claim_C4_week_window (t : Int) :
    pyWeekday (get_monday_date t) = 0 ∧
    get_monday_date t ≤ t ∧
    (build_week_dates (get_monday_date t)).card = 7 ∧
    (∀ x : Int, x ∈ build_week_dates (get_monday_date t) ↔
      ∃ i : Nat, i < 7 ∧ x = get_monday_date t + i) := by
  refine ⟨?_, ?_, ?_, ?_⟩
  · simp only [get_monday_date, pyIsoweekday, pyWeekday]
    omega
  · simp only [get_monday_date, pyIsoweekday, pyWeekday]
    omega
  · rw [build_week_dates,
      Finset.card_image_of_injective _ (fun a b hab => by omega),
      Finset.card_range]
  · intro x
    simp only [build_week_dates, Finset.mem_image, Finset.mem_range]
    constructor
    · rintro ⟨i, hi, hx⟩
      exact ⟨i, hi, hx.symm⟩
    · rintro ⟨i, hi, hx⟩
      exact ⟨i, hi, hx.symm⟩

/-- C9 as stated is false at the whitespace-only input `" "`: the parser
does return no date, but only after invoking the fallback free-text
parser (the Python check `not date_str` is false for a whitespace-only string, and
the regex does not match it, so `dateutil.parser.parse` is called). -/
theorem claim_C9_counterexample :
    ¬ (parse_date_str noFallback (some " ") 2024 = ((none : Option Int), false)) := by
  decide

/-- C9 (amended): blank or non-string input makes the date parser return
no date immediately, without invoking the fallback free-text parser; a
whitespace-only non-blank input also yields no date, but only through the
fallback parser, which is invoked on it and fails. -/
theorem claim_C9_blank_input_unparseable (f : String → Option Int) (y : Int)
    (s : String) (hs : ∀ c ∈ s.data, pyIsSpace c = true) :
    parse_date_str f none y = (none, false) ∧
    parse_date_str f (some "") y = (none, false) ∧
    (s ≠ "" → parse_date_str f (some s) y = (f s, true)) := by
  refine ⟨rfl, rfl, fun hne => ?_⟩
  have hm : matchMMDD s = none := by
    unfold matchMMDD
    rw [List.dropWhile_eq_nil_iff.mpr hs]
  simp only [parse_date_str, if_neg hne, hm]

theorem claim_C9_witness :
    (∀ c ∈ (" ").data, pyIsSpace c = true) ∧
    (parse_date_str noFallback none 2024 = (none, false) ∧
     parse_date_str noFallback (some "") 2024 = (none, false) ∧
     (" " ≠ "" → parse_date_str noFallback (some " ") 2024 = (noFallback " ", true))) :=
  ⟨by decide, claim_C9_blank_input_unparseable noFallback 2024 " " (by decide)⟩

/-- `int()` of a non-empty string of decimal digits. -/
def digitsToNat (ds : List Char) : Nat :=
  ds.foldl (fun acc c => 10 * acc + digitVal c) 0

/-- The strict grammar of the spec — one or two digits, a slash-or-hyphen
separator, one or two digits, optionally a separator plus a 2-4 digit
year segment — always matches the regex, with the year segment ignored. -/
theorem matchMMDD_strict (mm dd ys : List Char) (sep : Char)
    (hmm : mm ≠ [] ∧ mm.length ≤ 2 ∧ ∀ c ∈ mm, c.isDigit = true)
    (hdd : dd ≠ [] ∧ dd.length ≤ 2 ∧ ∀ c ∈ dd, c.isDigit = true)
    (hsep : sep = '/' ∨ sep = '-')
    (hys : ys = [] ∨ ∃ sep2 yd, (sep2 = '/' ∨ sep2 = '-') ∧
      2 ≤ yd.length ∧ yd.length ≤ 4 ∧ (∀ c ∈ yd, c.isDigit = true) ∧
      ys = sep2 :: yd) :
    matchMMDD ⟨mm ++ sep :: dd ++ ys⟩ = some (digitsToNat mm, digitsToNat dd) := by
  obtain ⟨hmm0, hmm2, hmmd⟩ := hmm
  obtain ⟨hdd0, hdd2, hddd⟩ := hdd
  have hsepd : sep.isDigit = false := by rcases hsep with h | h <;> subst h <;> decide
  have hseps : isSep sep = true := by rcases hsep with h | h <;> subst h <;> decide
  rcases mm with _ | ⟨a, _ | ⟨b, _ | ⟨a3, t3⟩⟩⟩
  · exact absurd rfl hmm0
  all_goals try (simp only [List.length] at hmm2; omega)
  all_goals rcases dd with _ | ⟨x, _ | ⟨x2, _ | ⟨x3, u3⟩⟩⟩
  any_goals exact absurd rfl hdd0
  all_goals try (simp only [List.length] at hdd2; omega)
  all_goals
    rcases hys with rfl | ⟨sep2, yd, hsep2, -, -, -, rfl⟩
  all_goals
    first
    | (have hsep2d : sep2.isDigit = false := by
        rcases hsep2 with h | h <;> subst h <;> decide
       have ha : a.isDigit = true := hmmd a (by simp)
       have hx : x.isDigit = true := hddd x (by simp))
    | (have ha : a.isDigit = true := hmmd a (by simp)
       have hx : x.isDigit = true := hddd x (by simp))
  all_goals
    try have hb : b.isDigit = true := hmmd b (by simp)
  all_goals
    try have hx2 : x2.isDigit = true := hddd x2 (by simp)
  all_goals
    simp [matchMMDD, matchDay, digitsToNat, List.dropWhile_cons,
      digit_not_space ha, ha, hsepd, hseps, hx, digitVal]
  all_goals
    simp_all [matchDay]

/-- C3: every input in the strict month-slash-day grammar (1-2 digit
month, slash or hyphen, 1-2 digit day, optional discarded year segment)
with in-range month and day parses — via the strict pattern branch, never
the fallback — to the calendar date built from the supplied reference
year and the extracted month and day. -/
theorem claim_C3_strict_mmdd_parse (f : String → Option Int) (y : Int)
    (mm dd ys : List Char) (sep : Char)
    (hmm : mm ≠ [] ∧ mm.length ≤ 2 ∧ ∀ c ∈ mm, c.isDigit = true)
    (hdd : dd ≠ [] ∧ dd.length ≤ 2 ∧ ∀ c ∈ dd, c.isDigit = true)
    (hsep : sep = '/' ∨ sep = '-')
    (hys : ys = [] ∨ ∃ sep2 yd, (sep2 = '/' ∨ sep2 = '-') ∧
      2 ≤ yd.length ∧ yd.length ≤ 4 ∧ (∀ c ∈ yd, c.isDigit = true) ∧
      ys = sep2 :: yd)
    (hval : isValidDate y (digitsToNat mm) (digitsToNat dd) = true) :
    parse_date_str f (some ⟨mm ++ sep :: dd ++ ys⟩) y
      = (some (daysFromCivil y (digitsToNat mm) (digitsToNat dd)), false) := by
  have hne : (⟨mm ++ sep :: dd ++ ys⟩ : String) ≠ "" := by
    intro hc
    have hdata : mm ++ sep :: dd ++ ys = [] := congrArg String.data hc
    rcases mm with _ | ⟨a, t⟩
    · exact absurd rfl hmm.1
    · exact absurd hdata (by simp)
  simp only [parse_date_str, if_neg hne,
    matchMMDD_strict mm dd ys sep hmm hdd hsep hys, hval, if_pos]

theorem claim_C3_witness :
    ((['7'] : List Char) ≠ [] ∧ (['7'] : List Char).length ≤ 2 ∧
      ∀ c ∈ (['7'] : List Char), c.isDigit = true) ∧
    ((['4'] : List Char) ≠ [] ∧ (['4'] : List Char).length ≤ 2 ∧
      ∀ c ∈ (['4'] : List Char), c.isDigit = true) ∧
    ('/' = '/' ∨ '/' = '-') ∧
    ((['/', '2', '0', '2', '5'] : List Char) = [] ∨ ∃ sep2 yd,
      (sep2 = '/' ∨ sep2 = '-') ∧ 2 ≤ yd.length ∧ yd.length ≤ 4 ∧
      (∀ c ∈ yd, c.isDigit = true) ∧ ['/', '2', '0', '2', '5'] = sep2 :: yd) ∧
    isValidDate 2024 (digitsToNat ['7']) (digitsToNat ['4']) = true ∧
    parse_date_str noFallback
      (some ⟨['7'] ++ '/' :: ['4'] ++ ['/', '2', '0', '2', '5']⟩) 2024
      = (some (daysFromCivil 2024 (digitsToNat ['7']) (digitsToNat ['4'])), false) ∧
    parse_date_str noFallback (some "7/4") 2024
      = (some (daysFromCivil 2024 7 4), false) ∧
    civilFromDays (daysFromCivil 2024 7 4) = (2024, 7, 4) :=
  ⟨by decide, by decide, by decide,
    Or.inr ⟨'/', ['2', '0', '2', '5'], by decide, by decide, by decide, by decide, rfl⟩,
    by decide,
    claim_C3_strict_mmdd_parse noFallback 2024 ['7'] ['4'] ['/', '2', '0', '2', '5'] '/'
      ⟨by decide, by decide, by decide⟩ ⟨by decide, by decide, by decide⟩
      (by decide)
      (Or.inr ⟨'/', ['2', '0', '2', '5'], by decide, by decide, by decide, by decide, rfl⟩)
      (by decide),
    by decide, by decide⟩

theorem evLe_trans (a b c : Event) (hab : evLe a b = true)
    (hbc : evLe b c = true) : evLe a c = true := by
  simp only [evLe, decide_eq_true_eq, evKeyLE] at *
  rcases hab with h1 | ⟨h1, h1'⟩ <;> rcases hbc with h2 | ⟨h2, h2'⟩
  · exact Or.inl (h1.trans h2)
  · exact Or.inl (h2 ▸ h1)
  · exact Or.inl (h1 ▸ h2)
  · exact Or.inr ⟨h1.trans h2, le_trans h1' h2'⟩

theorem evLe_total (a b : Event) : evLe a b || evLe b a := by
  rcases lt_trichotomy a.date b.date with h | h | h
  · simp [evLe, evKeyLE, h]
  · rcases le_total (a.time.getD "") (b.time.getD "") with h' | h'
    · simp [evLe, evKeyLE, h, h']
    · simp [evLe, evKeyLE, h, h']
  · simp [evLe, evKeyLE, h]

/-- C6: the sort performed by the formatter is a permutation of the input, ordered by
date ascending then time-string ascending (so an event with empty time
sorts before one with a time string on the same date), and stable: events
with equal sort keys keep their input order. -/
theorem claim_C6_stable_sort (events : List Event) (hne : events ≠ []) :
    (sortEvents events).Perm events ∧
    (sortEvents events).Pairwise (fun a b =>
      a.date < b.date ∨ (a.date = b.date ∧ a.time.getD "" ≤ b.time.getD "")) ∧
    (∀ a b : Event, a.date = b.date → a.time.getD "" = b.time.getD "" →
      List.Sublist [a, b] events → List.Sublist [a, b] (sortEvents events)) := by
  refine ⟨List.mergeSort_perm events evLe, ?_, ?_⟩
  · have hs := @List.sorted_mergeSort Event evLe evLe_trans evLe_total events
    exact hs.imp (fun hab => by simpa [evLe, evKeyLE] using hab)
  · intro a b hd ht hsub
    refine List.pair_sublist_mergeSort evLe_trans evLe_total ?_ hsub
    simp [evLe, evKeyLE, hd, ht]

def evC6a : Event :=
  { date := daysFromCivil 2024 7 3, time := some "15:00-16:00", content := "A"
    person := "X", type := "ゼミ", type_raw := "ゼミ", absent_raw := ""
    absent_display := none }

def evC6b : Event :=
  { date := daysFromCivil 2024 7 3, time := none, content := "B"
    person := "", type := "重要日程", type_raw := "", absent_raw := ""
    absent_display := none }

theorem claim_C6_witness :
    ([evC6a, evC6b] : List Event) ≠ [] ∧
    ((sortEvents [evC6a, evC6b]).Perm [evC6a, evC6b] ∧
     (sortEvents [evC6a, evC6b]).Pairwise (fun a b =>
       a.date < b.date ∨ (a.date = b.date ∧ a.time.getD "" ≤ b.time.getD "")) ∧
     (∀ a b : Event, a.date = b.date → a.time.getD "" = b.time.getD "" →
       List.Sublist [a, b] [evC6a, evC6b] → List.Sublist [a, b] (sortEvents [evC6a, evC6b]))) :=
  ⟨by simp, claim_C6_stable_sort [evC6a, evC6b] (by simp)⟩

/-- C5: a Regular event renders as one summary line followed by
blockquote bullets: person and time only when non-empty, the absence
bullet always (verbatim text, or the literal `なし` when empty), and the
non-standard-time warning exactly when a time is present and differs from
the canonical `13:00-14:30`.  The two hypotheses beyond the type exclude
the degenerate `some ""` optional fields, which the classifier never
produces. -/
theorem claim_C5_regular_rendering (ev : Event) (hty : ev.type = "ゼミ")
    (htime : ev.time ≠ some "") (habs : ev.absent_display ≠ some "") :
    formatEventLines ev =
      [toString (dateMonth ev.date) ++ "/" ++ toString (dateDay ev.date) ++ "("
        ++ weekday_map (pyWeekday ev.date) ++ "): " ++ ev.content]
      ++ (if ev.person ≠ "" then ["> • 担当: " ++ ev.person] else [])
      ++ (match ev.time with
          | some t => ["> • 時間: " ++ t]
          | none => [])
      ++ (match ev.absent_display with
          | some t => ["> • 欠席予定: " ++ t]
          | none => ["> • 欠席予定: なし"])
      ++ (match ev.time with
          | some t =>
            if t ≠ "13:00-14:30" then
              ["> • *※注意! 時間が通常の 13:00-14:30 以外です*"]
            else []
          | none => []) := by
  have hT : (if pyTruthyOpt ev.time then ["> • 時間: " ++ ev.time.getD ""] else [])
      = (match ev.time with | some t => ["> • 時間: " ++ t] | none => []) := by
    cases htt : ev.time with
    | none => simp [pyTruthyOpt]
    | some t =>
      have hne : t ≠ "" := fun hc => htime (by rw [htt, hc])
      simp [pyTruthyOpt, hne]
  have hA : (if pyTruthyOpt ev.absent_display then
        ["> • 欠席予定: " ++ ev.absent_display.getD ""]
      else ["> • 欠席予定: なし"])
      = (match ev.absent_display with
         | some t => ["> • 欠席予定: " ++ t]
         | none => ["> • 欠席予定: なし"]) := by
    cases hab : ev.absent_display with
    | none => simp [pyTruthyOpt]
    | some u =>
      have hne : u ≠ "" := fun hc => habs (by rw [hab, hc])
      simp [pyTruthyOpt, hne]
  have hW : (if pyTruthyOpt ev.time && !(ev.time.getD "" == "13:00-14:30") then
        ["> • *※注意! 時間が通常の 13:00-14:30 以外です*"]
      else [])
      = (match ev.time with
         | some t =>
           if t ≠ "13:00-14:30" then
             ["> • *※注意! 時間が通常の 13:00-14:30 以外です*"]
           else []
         | none => []) := by
    cases htt : ev.time with
    | none => simp [pyTruthyOpt]
    | some t =>
      have hne : t ≠ "" := fun hc => htime (by rw [htt, hc])
      by_cases hc : t = "13:00-14:30"
      · simp [pyTruthyOpt, hne, hc]
      · simp [pyTruthyOpt, hne, hc]
  simp only [formatEventLines, hty]
  rw [if_pos trivial, hT, hA, hW]

def evC5 : Event :=
  { date := daysFromCivil 2024 7 3, time := some "15:00-16:00", content := "A"
    person := "X", type := "ゼミ", type_raw := "ゼミ", absent_raw := "山田"
    absent_display := some "山田" }

theorem claim_C5_witness :
    evC5.type = "ゼミ" ∧ evC5.time ≠ some "" ∧ evC5.absent_display ≠ some "" ∧
    formatEventLines evC5 =
      [toString (dateMonth evC5.date) ++ "/" ++ toString (dateDay evC5.date) ++ "("
        ++ weekday_map (pyWeekday evC5.date) ++ "): " ++ evC5.content]
      ++ (if evC5.person ≠ "" then ["> • 担当: " ++ evC5.person] else [])
      ++ (match evC5.time with
          | some t => ["> • 時間: " ++ t]
          | none => [])
      ++ (match evC5.absent_display with
          | some t => ["> • 欠席予定: " ++ t]
          | none => ["> • 欠席予定: なし"])
      ++ (match evC5.time with
          | some t =>
            if t ≠ "13:00-14:30" then
              ["> • *※注意! 時間が通常の 13:00-14:30 以外です*"]
            else []
          | none => []) :=
  ⟨by decide, by decide, by decide,
    claim_C5_regular_rendering evC5 (by decide) (by decide) (by decide)⟩

/-- C7: with an empty event list the digest is exactly the week-range
header (end = monday + 6 days) followed by the fixed no-events line, and
nothing else. -/
theorem claim_C7_empty_week_digest (z : Int) (wd : Finset Int)
    (hmon : pyWeekday z = 0) :
    format_schedule [] z wd =
      "今週の予定：" ++ toString (dateMonth z) ++ "月" ++ toString (dateDay z)
        ++ "日 〜 " ++ toString (dateMonth (z + 6)) ++ "月"
        ++ toString (dateDay (z + 6)) ++ "日" ++ "\n予定はありません。" := rfl

theorem claim_C7_witness :
    pyWeekday (daysFromCivil 2024 7 1) = 0 ∧
    format_schedule [] (daysFromCivil 2024 7 1) ∅ =
      "今週の予定：" ++ toString (dateMonth (daysFromCivil 2024 7 1)) ++ "月"
        ++ toString (dateDay (daysFromCivil 2024 7 1)) ++ "日 〜 "
        ++ toString (dateMonth (daysFromCivil 2024 7 1 + 6)) ++ "月"
        ++ toString (dateDay (daysFromCivil 2024 7 1 + 6)) ++ "日"
        ++ "\n予定はありません。" :=
  ⟨by decide, claim_C7_empty_week_digest (daysFromCivil 2024 7 1) ∅ (by decide)⟩

/-- C8: the absence text carried on an event is exactly the extracted
cell text (the extraction strips surrounding whitespace, nothing more),
and the digest renders it verbatim — the bullet line is the fixed prefix
concatenated with the unmodified text, never tokenized or split. -/
theorem claim_C8_absent_verbatim (f : String → Option Int) (wd : Finset Int)
    (y : Int) (row : RawRecord) (ev : Event)
    (h : processRow f wd y row = some ev) :
    ev.absent_raw = pyStrip (fieldLookup row absentAliases) ∧
    ev.absent_display = (if ev.absent_raw = "" then none else some ev.absent_raw) ∧
    (ev.type = "ゼミ" → ev.absent_raw ≠ "" →
      ("> • 欠席予定: " ++ ev.absent_raw) ∈ formatEventLines ev) := by
  obtain ⟨-, -, -, -, -, h6, h7, -, -⟩ := processRow_inv f wd y row ev h
  refine ⟨h6, h7, fun hty habs => ?_⟩
  have hdisp : ev.absent_display = some ev.absent_raw := by rw [h7, if_neg habs]
  simp [formatEventLines, hty, hdisp, pyTruthyOpt, habs]

def rowC8 : RawRecord := [("日付", "7/3"), ("タイプ", "ゼミ"),
  ("テスト時間", "13:00-14:30"), ("内容", "A"), ("欠席予定", "山田, 佐藤")]

def evC8 : Event :=
  { date := daysFromCivil 2024 7 3, time := some "13:00-14:30", content := "A"
    person := "", type := "ゼミ", type_raw := "ゼミ", absent_raw := "山田, 佐藤"
    absent_display := some "山田, 佐藤" }

theorem claim_C8_witness :
    processRow noFallback wdJul2024 2024 rowC8 = some evC8 ∧
    (evC8.absent_raw = pyStrip (fieldLookup rowC8 absentAliases) ∧
     evC8.absent_display = (if evC8.absent_raw = "" then none else some evC8.absent_raw) ∧
     (evC8.type = "ゼミ" → evC8.absent_raw ≠ "" →
       ("> • 欠席予定: " ++ evC8.absent_raw) ∈ formatEventLines evC8)) :=
  ⟨by decide, claim_C8_absent_verbatim noFallback wdJul2024 2024 rowC8 evC8 (by decide)⟩

end PostDaily
